import Mathlib

/-!
Shallow embedding of `apps/desktop/src-tauri/src/recording.rs` (Cap desktop
recorder): the dual-stream recording coordinator.  Pure data and control
flow are translated directly; I/O effects (filesystem reads, process
spawns, uploads, sleeps) are passed in as explicit inputs, and logging
(`println!` / `eprintln!`) is elided since it carries no data flow.

Time units follow the source: `Duration::from_secs(k)` is modelled as the
natural number `k`.
-/

namespace Recording

/-- `RecordingOptions` from `recording.rs`. -/
structure RecordingOptions where
  user_id : String
  video_id : String
  screen_index : String
  video_index : String
  aws_region : String
  aws_bucket : String
  framerate : String
  resolution : String
deriving DecidableEq, Repr

/-! ### Chunk manifest reader (`load_segment_list`)

The file's contents are modelled as `Option (List String)`: `none` when
`File::open` fails, `some lines` with the file's lines otherwise (Rust's
`BufRead::lines` strips the terminators).  Rust's `line.is_empty()` is
byte-length zero, i.e. equality with `""`. -/

/-- `load_segment_list` from `recording.rs`: open the manifest, insert every
non-empty line into a `HashSet`, propagate the open failure. -/
def load_segment_list (file : Option (List String)) : Except Unit (Finset String) :=
  match file with
  | none => Except.error ()
  | some lines => Except.ok (lines.foldl (fun segments line => if line = "" then segments else insert line segments) ∅)

/-! ### Live chunk watcher (`start_upload_loop`)

One loop iteration consumes one `IterInput`: the shutdown-flag value read
at the top of the iteration, the result of `load_segment_list`, and which
chunk files currently exist on disk (`segment_path.is_file()`).  The
manifest `HashSet` is iterated in some order; that order is the list in
the `Except.ok` payload.  Dispatching an upload (`tokio::spawn` + pushing
the handle) is recorded by appending the filename to the dispatch log. -/

structure IterInput where
  shutdown : Bool
  manifest : Except Unit (List String)
  onDisk : String → Bool

/-- The `for segment_filename in new_segments` body of `start_upload_loop`:
dispatch each filename that is on disk and newly inserted into
`watched_segments`. -/
def processSegments (segs : List String) (onDisk : String → Bool)
    (seen : Finset String) (dispatched : List String) : Finset String × List String :=
  match segs with
  | [] => (seen, dispatched)
  | f :: rest =>
    if onDisk f ∧ f ∉ seen then
      processSegments rest onDisk (insert f seen) (dispatched ++ [f])
    else
      processSegments rest onDisk seen dispatched

inductive IterAction where
  | exitLoop
  | tick (seen : Finset String) (dispatched : List String)
deriving DecidableEq

/-- One iteration of the `loop` in `start_upload_loop`: check the shutdown
flag (the only `break`), then load the manifest — a read failure is logged
and the iteration just ticks on — then process the segments. -/
def upload_loop_iteration (inp : IterInput) (seen : Finset String) : IterAction :=
  if inp.shutdown then .exitLoop
  else
    match inp.manifest with
    | Except.error _ => .tick seen []
    | Except.ok segs =>
      let p := processSegments segs inp.onDisk seen []
      .tick p.1 p.2

/-- The whole watcher loop over a finite window of iteration inputs,
threading `watched_segments` and accumulating the dispatch log. -/
def start_upload_loop_run (inputs : List IterInput)
    (seen : Finset String) (dispatched : List String) : Finset String × List String :=
  match inputs with
  | [] => (seen, dispatched)
  | inp :: rest =>
    match upload_loop_iteration inp seen with
    | .exitLoop => (seen, dispatched)
    | .tick seen2 newDisp => start_upload_loop_run rest seen2 (dispatched ++ newDisp)

/-- The live-phase upload task body spawned by `start_upload_loop`: it logs
the upload's outcome and always returns `Ok(())`. -/
def liveUploadTask (_uploadResult : Except String String) : Except String Unit :=
  Except.ok ()

/-! ### Drain-phase per-file upload task (`upload_remaining_chunks`'s spawned body)

Constants as in the source. -/

/-- `let file_stability_checks = 2`. -/
def file_stability_checks : Nat := 2

/-- `let retry_interval = Duration::from_secs(2)`. -/
def retry_interval : Nat := 2

/-- `let upload_timeout = Duration::from_secs(15)`: each upload attempt is
wrapped in a 15-time-unit timeout; an attempt that hits it is the
`timedOut` outcome below. -/
def upload_timeout : Nat := 15

/-- One poll of the stability wait: the file is absent
(`!path.exists()`), `fs::metadata` fails, or the file has this size. -/
inductive FsObs where
  | absent
  | metaErr
  | size (n : Nat)
deriving DecidableEq, Repr

inductive StabilityResult where
  | stable
  | fileGone
  | metaFailed
  | stillWaiting
deriving DecidableEq, Repr

/-- The `while stable_count < file_stability_checks` loop: on `absent` or a
metadata error the loop `break`s; on a size equal to `last_size` the stable
count increments, otherwise `last_size` is updated and the count resets.
An exhausted observation window while the guard still holds is
`stillWaiting` (the file never stabilised within the window). -/
def stabilityLoop (obs : List FsObs) (lastSize stableCount : Nat) : StabilityResult :=
  if stableCount < file_stability_checks then
    match obs with
    | [] => .stillWaiting
    | o :: rest =>
      match o with
      | .absent => .fileGone
      | .metaErr => .metaFailed
      | .size n =>
        if lastSize = n then stabilityLoop rest lastSize (stableCount + 1)
        else stabilityLoop rest n 0
  else .stable

/-- Outcome of one `timeout(upload_timeout, upload_file(..)).await`:
`Ok(Ok(_))`, `Ok(Err(e))`, or `Err(_)` (elapsed). -/
inductive AttemptOutcome where
  | success
  | appError
  | timedOut
deriving DecidableEq, Repr

structure RetryResult where
  attempts : Nat
  uploaded : Bool
  sleepTime : Nat
deriving DecidableEq, Repr

/-- The `while attempts < 3` retry loop; `remaining = 3 - attempts` is the
loop guard's slack.  `outcome k` is the result of the k-th attempt.  A
success `break`s before the sleep; every failed attempt (application error
or timeout) is followed by `sleep(retry_interval)`. -/
def uploadRetryLoopAux (outcome : Nat → AttemptOutcome)
    (remaining attempts sleepTime : Nat) : RetryResult :=
  match remaining with
  | 0 => ⟨attempts, false, sleepTime⟩
  | r + 1 =>
    match outcome (attempts + 1) with
    | .success => ⟨attempts + 1, true, sleepTime⟩
    | .appError => uploadRetryLoopAux outcome r (attempts + 1) (sleepTime + retry_interval)
    | .timedOut => uploadRetryLoopAux outcome r (attempts + 1) (sleepTime + retry_interval)

/-- The full retry loop, starting from `attempts = 0` with the attempt
budget of 3. -/
def uploadRetryLoop (outcome : Nat → AttemptOutcome) : RetryResult :=
  uploadRetryLoopAux outcome 3 0 0

structure TaskOutcome where
  stability : StabilityResult
  attempts : Nat
  uploaded : Bool
deriving DecidableEq, Repr

/-- The whole spawned drain task for one file: run the stability wait, then
— whenever that loop exits at all, including via the `break`s on a missing
file or a metadata error — fall through to the retry loop.  Only a file
that never stabilises (the loop never exits) is never attempted. -/
def drainFileTask (obs : List FsObs) (outcome : Nat → AttemptOutcome) : TaskOutcome :=
  match stabilityLoop obs 0 0 with
  | .stillWaiting => ⟨.stillWaiting, 0, false⟩
  | s =>
    let r := uploadRetryLoop outcome
    ⟨s, r.attempts, r.uploaded⟩

/-! ### Shutdown drain (`upload_remaining_chunks`) -/

/-- One `read_dir` entry: its filename, whether `path.is_file()`, its
extension, and the environment of its drain task (stability observations
and attempt outcomes). -/
structure ChunkFile where
  name : String
  isFile : Bool
  ext : String
  obs : List FsObs
  outcome : Nat → AttemptOutcome

/-- Instrumented result of `upload_remaining_chunks`: whether `read_dir`
was reached, the outcomes of the spawned per-file tasks, and the returned
`Result`. -/
structure DrainOutcome where
  scanned : Bool
  fileOutcomes : List TaskOutcome
  result : Except String Unit

/-- `upload_remaining_chunks` from `recording.rs`: with no options it fails
immediately — before `read_dir` — with "No recording options provided";
otherwise it sleeps 1s, reads the directory, spawns one task per `.mkv`
file entry, awaits them all (join errors only logged), and returns
`Ok(())` regardless of the individual upload outcomes. -/
def upload_remaining_chunks (options : Option RecordingOptions)
    (dirRead : Except String (List ChunkFile)) : DrainOutcome :=
  match options with
  | none => ⟨false, [], Except.error "No recording options provided"⟩
  | some _ =>
    match dirRead with
    | Except.error e => ⟨true, [], Except.error ("Error reading directory: " ++ e)⟩
    | Except.ok entries =>
      let tasks := entries.filterMap fun f =>
        if f.isFile ∧ f.ext = "mkv" then some (drainFileTask f.obs f.outcome) else none
      ⟨true, tasks, Except.ok ()⟩

/-! ### Session state and `stop_all_recordings`

`RecordingState` from the source; process handles are modelled as opaque
ids, and each stored upload `JoinHandle` by its eventual `await` result:
the outer `Except` is the join result (error on task panic), the inner one
the task's own `Result<(), String>`. -/

structure SessionState where
  screen_process : Option Nat
  video_process : Option Nat
  upload_handles : List (Except String (Except String Unit))
  recording_options : Option RecordingOptions
  shutdown_flag : Bool

/-- The `for handle in handles` loop at the end of `stop_all_recordings`:
`handle.await.map_err(..)?` propagates a join error (stopping the loop
early) and discards the task's inner result.  Also counts how many handles
were awaited. -/
def awaitHandles (handles : List (Except String (Except String Unit))) :
    Except String Unit × Nat :=
  match handles with
  | [] => (Except.ok (), 0)
  | Except.error e :: _ => (Except.error e, 1)
  | Except.ok _ :: rest =>
    let p := awaitHandles rest
    (p.1, p.2 + 1)

/-- Environment of one `stop_all_recordings` call: the outcome of
`std::env::current_dir()`, the two directories' `read_dir` contents, and
which of the two drain futures the `tokio::select!` sees complete first
(the other future is dropped, i.e. cancelled, when `select!` returns). -/
structure StopEnv where
  cwd : Except String Unit
  screenDirRead : Except String (List ChunkFile)
  videoDirRead : Except String (List ChunkFile)
  selectScreenFirst : Bool

/-- Instrumented result of `stop_all_recordings`: the returned `Result`,
the session state afterwards, the outcome of the drain that `select!`
completed (`none` if the call errored before the drains), which streams'
drains ran to completion, and how many live-phase upload handles were
awaited. -/
structure StopOutcome where
  result : Except String Unit
  finalState : SessionState
  drain : Option DrainOutcome
  completedDrains : List String
  liveAwaited : Nat

/-- `stop_all_recordings` from `recording.rs`: set the shutdown flag, kill
both encoder processes (kill failures only logged) and clear their
handles, resolve the chunk directories (a `current_dir` failure returns
early), clone — not take — `recording_options`, `select!` over the two
drain futures logging the completed one's error, drain `upload_handles`
and await each, and return `Ok(())`. -/
def stop_all_recordings (st : SessionState) (env : StopEnv) : StopOutcome :=
  let st1 : SessionState :=
    { st with shutdown_flag := true, screen_process := none, video_process := none }
  match env.cwd with
  | Except.error e =>
    ⟨Except.error ("Cannot get current directory: " ++ e), st1, none, [], 0⟩
  | Except.ok _ =>
    let recording_options := st1.recording_options
    let dOut :=
      if env.selectScreenFirst then upload_remaining_chunks recording_options env.screenDirRead
      else upload_remaining_chunks recording_options env.videoDirRead
    let completed := [if env.selectScreenFirst then "screen" else "video"]
    let handles := st1.upload_handles
    let st2 : SessionState := { st1 with upload_handles := [] }
    let a := awaitHandles handles
    ⟨a.1, st2, some dOut, completed, a.2⟩

/-! ### `start_dual_recording`

Every fallible setup step's outcome is an input; after both spawns succeed
the function only updates the session state, runs the two watcher loops to
completion via `tokio::join!`, and returns `Ok(())` — no later event feeds
back into the returned `Result`. -/

structure StartEnv where
  ffmpegPath : Except String String
  cwdScreen : Except String Unit
  cwdVideo : Except String Unit
  cleanScreen : Except String Unit
  cleanVideo : Except String Unit
  argsScreen : Except String (List String)
  argsVideo : Except String (List String)
  spawnScreen : Except String Unit
  spawnVideo : Except String Unit
  screenLoopInputs : List IterInput
  videoLoopInputs : List IterInput

/-- `start_dual_recording` from `recording.rs`.  The session-state write
between the spawns and the `tokio::join!` is not part of the returned
value and is elided here; the two `start_upload_loop` calls joined at the
end are run on their input windows, and their outputs do not flow into the
result. -/
def start_dual_recording (env : StartEnv) : Except String Unit :=
  match env.ffmpegPath with
  | Except.error e => Except.error e
  | Except.ok _ =>
  match env.cwdScreen with
  | Except.error _ => Except.error "Cannot get current directory"
  | Except.ok _ =>
  match env.cwdVideo with
  | Except.error _ => Except.error "Cannot get current directory"
  | Except.ok _ =>
  match env.cleanScreen with
  | Except.error e => Except.error e
  | Except.ok _ =>
  match env.cleanVideo with
  | Except.error e => Except.error e
  | Except.ok _ =>
  match env.argsScreen with
  | Except.error e => Except.error e
  | Except.ok _ =>
  match env.argsVideo with
  | Except.error e => Except.error e
  | Except.ok _ =>
  match env.spawnScreen with
  | Except.error e => Except.error e
  | Except.ok _ =>
  match env.spawnVideo with
  | Except.error e => Except.error e
  | Except.ok _ =>
    let _screenLoop := start_upload_loop_run env.screenLoopInputs ∅ []
    let _videoLoop := start_upload_loop_run env.videoLoopInputs ∅ []
    Except.ok ()

/-! ### The drain's counting permit pool (`Semaphore::new(8)`)

Each spawned drain task acquires one permit before its stability wait and
upload attempts and holds it (`_permit`) until the task body ends.  A
drain execution's interleaving is a trace of acquire/release events tagged
with task ids; `semValid` is the semaphore's semantics (an acquire only
ever happens when fewer than 8 permits are out), and `heldAfter` gives the
set of tasks holding a permit — i.e. the tasks concurrently inside their
stability wait or upload attempts. -/

/-- `Semaphore::new(8)`. -/
def drainSemaphorePermits : Nat := 8

inductive SemEvent where
  | acquire (task : Nat)
  | release (task : Nat)
deriving DecidableEq, Repr

/-- The set of tasks holding a permit after a trace, starting from `held`. -/
def heldAfter (held : Finset Nat) (t : List SemEvent) : Finset Nat :=
  match t with
  | [] => held
  | SemEvent.acquire i :: rest => heldAfter (insert i held) rest
  | SemEvent.release i :: rest => heldAfter (held.erase i) rest

/-- Semaphore semantics: an `acquire` happens only when fewer than
`drainSemaphorePermits` permits are out (and the task does not already
hold one); a `release` only by a task holding a permit. -/
def semValid (held : Finset Nat) (t : List SemEvent) : Bool :=
  match t with
  | [] => true
  | SemEvent.acquire i :: rest =>
    decide (held.card < drainSemaphorePermits) && decide (i ∉ held) && semValid (insert i held) rest
  | SemEvent.release i :: rest =>
    decide (i ∈ held) && semValid (held.erase i) rest

/-- A sample `RecordingOptions` value for concrete instantiations. -/
def sampleOptions : RecordingOptions :=
  ⟨"user-1", "video-1", "0", "1", "us-east-1", "bucket", "30", "1920x1080"⟩

/-! ## Theorems -/

/-- Membership in the fold that `load_segment_list` builds. -/
theorem mem_loadFold (lines : List String) (init : Finset String) (x : String) :
    x ∈ lines.foldl (fun segments line => if line = "" then segments else insert line segments) init ↔
      x ∈ init ∨ (x ∈ lines ∧ x ≠ "") := by
  induction lines generalizing init with
  | nil => simp
  | cons l rest ih =>
    simp only [List.foldl_cons, List.mem_cons]
    by_cases hl : l = ""
    · subst hl
      rw [if_pos rfl, ih]
      tauto
    · rw [if_neg hl, ih, Finset.mem_insert]
      have hx : x = l → x ≠ "" := fun h => h ▸ hl
      tauto

/-- C9: loading the manifest returns exactly the set of non-empty lines of
the file (duplicates collapse, empty lines excluded), and returns an I/O
error when the manifest cannot be opened. -/
theorem manifest_load_c9 :
    load_segment_list none = Except.error () ∧
    ∀ lines x, ∃ s, load_segment_list (some lines) = Except.ok s ∧
      (x ∈ s ↔ (x ∈ lines ∧ x ≠ "")) := by
  refine ⟨rfl, fun lines x => ⟨_, rfl, ?_⟩⟩
  rw [mem_loadFold]
  simp

theorem manifest_load_c9_witness :
    ("a" ∈ ["a", "", "a", "b"] ∧ "a" ≠ "") ∧
    ∃ s, load_segment_list (some ["a", "", "a", "b"]) = Except.ok s ∧ "a" ∈ s := by
  obtain ⟨s, hs, hiff⟩ := manifest_load_c9.2 ["a", "", "a", "b"] "a"
  exact ⟨by decide, s, hs, hiff.mpr (by decide)⟩

/-- C5: a live-watcher iteration exits the loop if and only if the shared
shutdown flag is set at the start of the iteration; a manifest read
failure only makes the iteration tick on with the seen set unchanged and
nothing dispatched. -/
theorem watcher_exit_c5 (inp : IterInput) (seen : Finset String) :
    (upload_loop_iteration inp seen = .exitLoop ↔ inp.shutdown = true) ∧
    (inp.shutdown = false → ∀ e, inp.manifest = Except.error e →
      upload_loop_iteration inp seen = .tick seen []) := by
  constructor
  · constructor
    · intro h
      by_contra hs
      have hs' : inp.shutdown = false := by
        cases hfl : inp.shutdown
        · rfl
        · exact absurd hfl hs
      rw [upload_loop_iteration, hs'] at h
      simp only [Bool.false_eq_true, if_false] at h
      rcases hm : inp.manifest with e | segs <;> rw [hm] at h <;> simp at h
    · intro h
      rw [upload_loop_iteration, h]
      simp
  · intro hs e hm
    rw [upload_loop_iteration, hs, hm]
    simp

theorem watcher_exit_c5_witness :
    upload_loop_iteration ⟨true, Except.error (), fun _ => false⟩ ∅ = .exitLoop ∧
    upload_loop_iteration ⟨false, Except.error (), fun _ => false⟩ ∅ = .tick ∅ [] :=
  ⟨(watcher_exit_c5 ⟨true, Except.error (), fun _ => false⟩ ∅).1.mpr rfl,
   (watcher_exit_c5 ⟨false, Except.error (), fun _ => false⟩ ∅).2 rfl () rfl⟩

/-- Closed form of the drain retry loop, by cases on the first three
attempt outcomes. -/
theorem uploadRetryLoop_eq (outcome : Nat → AttemptOutcome) :
    uploadRetryLoop outcome =
      if outcome 1 = .success then ⟨1, true, 0⟩
      else if outcome 2 = .success then ⟨2, true, retry_interval⟩
      else if outcome 3 = .success then ⟨3, true, 2 * retry_interval⟩
      else ⟨3, false, 3 * retry_interval⟩ := by
  rcases h1 : outcome 1 <;> rcases h2 : outcome 2 <;> rcases h3 : outcome 3 <;>
    simp [uploadRetryLoop, uploadRetryLoopAux, h1, h2, h3] <;> ring_nf

/-- C6: the drain-phase retry loop for one file makes between 1 and 3
attempts (each one the `timeout(upload_timeout, upload_file(..))` call,
i.e. wrapped in a 15-time-unit timeout); the first success stops further
retries; both an application error and a timeout lead to a retry after a
`retry_interval` (2-time-unit) sleep; a success on attempt 3 comes after
2 × `retry_interval` of sleeping (so total elapsed ≥ 2 × retry-interval);
and exhausting all 3 attempts leaves the overall drain's result `Ok(())`
(the give-up is not propagated). -/
theorem drain_retry_c6 (outcome : Nat → AttemptOutcome) :
    (uploadRetryLoop outcome).attempts ≤ 3 ∧
    1 ≤ (uploadRetryLoop outcome).attempts ∧
    (outcome 1 = .success → uploadRetryLoop outcome = ⟨1, true, 0⟩) ∧
    (outcome 1 ≠ .success → outcome 2 = .success →
      uploadRetryLoop outcome = ⟨2, true, retry_interval⟩) ∧
    (outcome 1 ≠ .success → outcome 2 ≠ .success → outcome 3 = .success →
      uploadRetryLoop outcome = ⟨3, true, 2 * retry_interval⟩) ∧
    (outcome 1 ≠ .success → outcome 2 ≠ .success → outcome 3 ≠ .success →
      uploadRetryLoop outcome = ⟨3, false, 3 * retry_interval⟩) ∧
    (∀ opts dir, (upload_remaining_chunks (some opts) (Except.ok dir)).result = Except.ok ()) := by
  refine ⟨?_, ?_, ?_, ?_, ?_, ?_, fun opts dir => rfl⟩ <;>
    rw [uploadRetryLoop_eq] <;> intros <;> split_ifs <;> simp_all

theorem drain_retry_c6_witness :
    uploadRetryLoop (fun k => if k = 3 then AttemptOutcome.success else AttemptOutcome.timedOut) =
      ⟨3, true, 2 * retry_interval⟩ :=
  (drain_retry_c6 (fun k => if k = 3 then AttemptOutcome.success else AttemptOutcome.timedOut)).2.2.2.2.1
    (by decide) (by decide) (by decide)

/-- C3, counterexample: for a file that disappears on the very first
stability poll, the drain task still makes upload attempts (here 3 of
them), although the claim says the upload is abandoned with no attempt
made. -/
theorem drain_file_gone_c3_counterexample :
    stabilityLoop [FsObs.absent] 0 0 = .fileGone ∧
    (drainFileTask [FsObs.absent] (fun _ => AttemptOutcome.appError)).attempts = 3 :=
  ⟨rfl, rfl⟩

/-- C3, amended: when the file disappears during the stability wait, the
wait is cut short (`fileGone`), but the upload is not abandoned: the task
falls through to the retry loop and makes its upload attempts (at least
one, exactly as many as the retry loop makes). -/
theorem drain_file_gone_c3 (obs : List FsObs) (outcome : Nat → AttemptOutcome)
    (h : stabilityLoop obs 0 0 = .fileGone) :
    (drainFileTask obs outcome).stability = .fileGone ∧
    (drainFileTask obs outcome).attempts = (uploadRetryLoop outcome).attempts ∧
    1 ≤ (drainFileTask obs outcome).attempts := by
  have hd : drainFileTask obs outcome =
      ⟨.fileGone, (uploadRetryLoop outcome).attempts, (uploadRetryLoop outcome).uploaded⟩ := by
    rw [drainFileTask, h]
  refine ⟨by rw [hd], by rw [hd], ?_⟩
  rw [hd]
  show 1 ≤ (uploadRetryLoop outcome).attempts
  rw [uploadRetryLoop_eq]
  split_ifs <;> simp

theorem drain_file_gone_c3_witness :
    stabilityLoop [FsObs.size 5, FsObs.absent] 0 0 = .fileGone ∧
    (drainFileTask [FsObs.size 5, FsObs.absent] (fun _ => AttemptOutcome.timedOut)).attempts =
      (uploadRetryLoop (fun _ => AttemptOutcome.timedOut)).attempts :=
  ⟨rfl, (drain_file_gone_c3 [FsObs.size 5, FsObs.absent] (fun _ => AttemptOutcome.timedOut) rfl).2.1⟩

/-- Along a valid semaphore trace, the set of permit-holding tasks stays
within the permit count, from any start within the bound. -/
theorem heldAfter_card_le (p s : List SemEvent) (held : Finset Nat)
    (hcard : held.card ≤ drainSemaphorePermits)
    (hvalid : semValid held (p ++ s) = true) :
    (heldAfter held p).card ≤ drainSemaphorePermits := by
  induction p generalizing held with
  | nil => simpa [heldAfter] using hcard
  | cons e rest ih =>
    cases e with
    | acquire i =>
      rw [List.cons_append, semValid] at hvalid
      simp only [Bool.and_eq_true, decide_eq_true_eq] at hvalid
      obtain ⟨⟨hlt, hni⟩, hv⟩ := hvalid
      have hc : (insert i held).card ≤ drainSemaphorePermits := by
        rw [Finset.card_insert_of_not_mem hni]
        omega
      exact ih (insert i held) hc hv
    | release i =>
      rw [List.cons_append, semValid] at hvalid
      simp only [Bool.and_eq_true, decide_eq_true_eq] at hvalid
      obtain ⟨hm, hv⟩ := hvalid
      have hc : (held.erase i).card ≤ drainSemaphorePermits :=
        le_trans (Finset.card_le_card (Finset.erase_subset i held)) hcard
      exact ih (held.erase i) hc hv

/-- C7: for any execution trace of the drain dispatcher's permit pool
(`Semaphore::new(8)`) that respects the semaphore's semantics, at every
point (every prefix of the trace) the number of tasks holding a permit —
i.e. the tasks concurrently inside their stability wait and upload
attempts — never exceeds the capacity of 8; so with N > 8 files, never
more than 8 uploads run concurrently. -/
theorem drain_concurrency_c7 (t p s : List SemEvent)
    (hvalid : semValid ∅ t = true) (hsplit : p ++ s = t) :
    (heldAfter ∅ p).card ≤ drainSemaphorePermits :=
  heldAfter_card_le p s ∅ (by simp [drainSemaphorePermits]) (hsplit ▸ hvalid)

theorem drain_concurrency_c7_witness :
    semValid ∅ [SemEvent.acquire 0, SemEvent.acquire 1, SemEvent.release 0,
      SemEvent.release 1] = true ∧
    (heldAfter ∅ [SemEvent.acquire 0, SemEvent.acquire 1]).card ≤ drainSemaphorePermits :=
  ⟨by decide,
   drain_concurrency_c7
     [SemEvent.acquire 0, SemEvent.acquire 1, SemEvent.release 0, SemEvent.release 1]
     [SemEvent.acquire 0, SemEvent.acquire 1] [SemEvent.release 0, SemEvent.release 1]
     (by decide) rfl⟩

/-- `processSegments` never removes anything from the seen set. -/
theorem processSegments_seen_mono (segs : List String) (d : String → Bool) :
    ∀ seen disp, seen ⊆ (processSegments segs d seen disp).1 := by
  induction segs with
  | nil => intro seen disp; simp [processSegments]
  | cons f rest ih =>
    intro seen disp
    rw [processSegments]
    split_ifs with h
    · exact Finset.Subset.trans (Finset.subset_insert f seen) (ih (insert f seen) (disp ++ [f]))
    · exact ih seen disp

/-- `processSegments` only appends to the dispatch log. -/
theorem processSegments_disp_prefix (segs : List String) (d : String → Bool) :
    ∀ seen disp, ∃ extra, (processSegments segs d seen disp).2 = disp ++ extra := by
  induction segs with
  | nil => intro seen disp; exact ⟨[], by simp [processSegments]⟩
  | cons f rest ih =>
    intro seen disp
    rw [processSegments]
    split_ifs with h
    · obtain ⟨extra, he⟩ := ih (insert f seen) (disp ++ [f])
      exact ⟨[f] ++ extra, by rw [he, List.append_assoc]⟩
    · exact ih seen disp

/-- A filename already in the seen set is never dispatched by
`processSegments`. -/
theorem processSegments_count_of_seen (segs : List String) (d : String → Bool) (f : String) :
    ∀ seen disp, f ∈ seen →
      List.count f (processSegments segs d seen disp).2 = List.count f disp := by
  induction segs with
  | nil => intro seen disp _; simp [processSegments]
  | cons g rest ih =>
    intro seen disp hf
    rw [processSegments]
    split_ifs with h
    · have hne : g ≠ f := fun he => h.2 (he ▸ hf)
      have hz : List.count f [g] = 0 :=
        List.count_eq_zero.mpr fun hm => hne (List.mem_singleton.mp hm).symm
      rw [ih (insert g seen) (disp ++ [g]) (Finset.mem_insert_of_mem hf),
        List.count_append, hz]
      omega
    · exact ih seen disp hf

/-- Everything `processSegments` dispatches ends up in the seen set, and
the dispatch log stays duplicate-free. -/
theorem processSegments_inv (segs : List String) (d : String → Bool) :
    ∀ seen disp, (∀ g ∈ disp, g ∈ seen) → disp.Nodup →
      (∀ g ∈ (processSegments segs d seen disp).2, g ∈ (processSegments segs d seen disp).1) ∧
      (processSegments segs d seen disp).2.Nodup := by
  induction segs with
  | nil =>
    intro seen disp hsub hnd
    exact ⟨by simpa [processSegments] using hsub, by simpa [processSegments] using hnd⟩
  | cons f rest ih =>
    intro seen disp hsub hnd
    rw [processSegments]
    split_ifs with h
    · apply ih (insert f seen) (disp ++ [f])
      · intro g hg
        rcases List.mem_append.mp hg with hg | hg
        · exact Finset.mem_insert_of_mem (hsub g hg)
        · rw [List.mem_singleton.mp hg]
          exact Finset.mem_insert_self f seen
      · have hfd : f ∉ disp := fun hfd => h.2 (hsub f hfd)
        simp [List.nodup_append, hnd, hfd]
    · exact ih seen disp hsub hnd

/-- A filename in the manifest whose file is on disk is in the seen set
after `processSegments`, and is dispatched when not already seen. -/
theorem processSegments_complete (segs : List String) (d : String → Bool) (f : String) :
    ∀ seen disp, f ∈ segs → d f = true →
      f ∈ (processSegments segs d seen disp).1 ∧
      (f ∉ seen → f ∈ (processSegments segs d seen disp).2) := by
  induction segs with
  | nil =>
    intro seen disp hf _
    exact absurd hf (List.not_mem_nil f)
  | cons g rest ih =>
    intro seen disp hmem hd
    rw [processSegments]
    split_ifs with h
    · rcases List.mem_cons.mp hmem with rfl | hmem'
      · refine ⟨processSegments_seen_mono rest d (insert f seen) (disp ++ [f])
          (Finset.mem_insert_self f seen), fun _ => ?_⟩
        obtain ⟨extra, he⟩ := processSegments_disp_prefix rest d (insert f seen) (disp ++ [f])
        rw [he]
        simp
      · obtain ⟨h1, h2⟩ := ih (insert g seen) (disp ++ [g]) hmem' hd
        refine ⟨h1, fun hns => ?_⟩
        by_cases hfg : f = g
        · subst hfg
          obtain ⟨extra, he⟩ := processSegments_disp_prefix rest d (insert f seen) (disp ++ [f])
          rw [he]
          simp
        · exact h2 fun hIns => (Finset.mem_insert.mp hIns).elim hfg hns
    · rcases List.mem_cons.mp hmem with rfl | hmem'
      · have hfseen : f ∈ seen := by
          by_contra hns
          exact h ⟨hd, hns⟩
        exact ⟨processSegments_seen_mono rest d seen disp hfseen, fun hns => absurd hfseen hns⟩
      · exact ih seen disp hmem' hd

/-- What a non-exiting watcher iteration does to the seen set and the
dispatch log. -/
theorem iteration_tick_spec (inp : IterInput) (seen seen2 : Finset String) (nd : List String)
    (hit : upload_loop_iteration inp seen = .tick seen2 nd) :
    (∃ e, inp.manifest = Except.error e ∧ seen2 = seen ∧ nd = []) ∨
    (∃ segs, inp.manifest = Except.ok segs ∧
      seen2 = (processSegments segs inp.onDisk seen []).1 ∧
      nd = (processSegments segs inp.onDisk seen []).2) := by
  rw [upload_loop_iteration] at hit
  cases hsh : inp.shutdown
  · rw [hsh, if_neg (by simp)] at hit
    rcases hm : inp.manifest with e | segs <;> rw [hm] at hit <;>
      simp only [IterAction.tick.injEq] at hit
    · exact Or.inl ⟨e, rfl, hit.1.symm, hit.2.symm⟩
    · exact Or.inr ⟨segs, rfl, hit.1.symm, hit.2.symm⟩
  · rw [hsh, if_pos rfl] at hit
    simp at hit

/-- The watcher run never removes anything from the seen set. -/
theorem run_seen_mono (inputs : List IterInput) :
    ∀ seen disp, seen ⊆ (start_upload_loop_run inputs seen disp).1 := by
  induction inputs with
  | nil => intro seen disp; simp [start_upload_loop_run]
  | cons inp rest ih =>
    intro seen disp
    rw [start_upload_loop_run]
    cases hit : upload_loop_iteration inp seen with
    | exitLoop => exact subset_rfl
    | tick seen2 nd =>
      have hsub : seen ⊆ seen2 := by
        rcases iteration_tick_spec inp seen seen2 nd hit with ⟨e, _, rfl, rfl⟩ | ⟨segs, _, h2, _⟩
        · exact subset_rfl
        · rw [h2]
          exact processSegments_seen_mono segs inp.onDisk seen []
      exact Finset.Subset.trans hsub (ih seen2 (disp ++ nd))

/-- A filename already in the seen set is never dispatched again by the
watcher run. -/
theorem run_count_of_seen (inputs : List IterInput) (f : String) :
    ∀ seen disp, f ∈ seen →
      List.count f (start_upload_loop_run inputs seen disp).2 = List.count f disp := by
  induction inputs with
  | nil => intro seen disp _; rfl
  | cons inp rest ih =>
    intro seen disp hf
    rw [start_upload_loop_run]
    cases hit : upload_loop_iteration inp seen with
    | exitLoop => rfl
    | tick seen2 nd =>
      rcases iteration_tick_spec inp seen seen2 nd hit with ⟨e, _, rfl, rfl⟩ | ⟨segs, _, h2, h3⟩
      · show List.count f (start_upload_loop_run rest seen2 (disp ++ [])).2 = List.count f disp
        rw [List.append_nil]
        exact ih _ disp hf
      · have hcount : List.count f nd = 0 := by
          rw [h3]
          simpa using processSegments_count_of_seen segs inp.onDisk f seen [] hf
        have hseen2 : f ∈ seen2 := by
          rw [h2]
          exact processSegments_seen_mono segs inp.onDisk seen [] hf
        rw [ih seen2 (disp ++ nd) hseen2, List.count_append, hcount]
        omega

/-- The watcher run's dispatch log stays duplicate-free when every already
logged filename is already seen. -/
theorem run_nodup (inputs : List IterInput) :
    ∀ seen disp, (∀ g ∈ disp, g ∈ seen) → disp.Nodup →
      (start_upload_loop_run inputs seen disp).2.Nodup := by
  induction inputs with
  | nil => intro seen disp _ hnd; exact hnd
  | cons inp rest ih =>
    intro seen disp hsub hnd
    rw [start_upload_loop_run]
    cases hit : upload_loop_iteration inp seen with
    | exitLoop => exact hnd
    | tick seen2 nd =>
      rcases iteration_tick_spec inp seen seen2 nd hit with ⟨e, _, rfl, rfl⟩ | ⟨segs, _, h2, h3⟩
      · exact ih _ (disp ++ []) (by simpa using hsub) (by simpa using hnd)
      · obtain ⟨hall, hndnd⟩ := processSegments_inv segs inp.onDisk seen [] (by simp) List.nodup_nil
        apply ih seen2 (disp ++ nd)
        · intro g hg
          rcases List.mem_append.mp hg with hg | hg
          · rw [h2]
            exact processSegments_seen_mono segs inp.onDisk seen [] (hsub g hg)
          · rw [h2]
            exact hall g (h3 ▸ hg)
        · rw [List.nodup_append]
          refine ⟨hnd, h3 ▸ hndnd, ?_⟩
          intro g hgdisp hgnd
          have hz : List.count g nd = 0 := by
            rw [h3]
            simpa using processSegments_count_of_seen segs inp.onDisk g seen [] (hsub g hgdisp)
          exact (List.count_eq_zero.mp hz) hgnd

/-- C4: over any sequence of manifest loads, the per-stream seen set only
grows; a filename already in the seen set is never dispatched again; the
dispatch log of a run started from an empty seen set has no duplicates
(at-most-one dispatch per filename); and while processing a manifest,
every filename in it whose file is on disk ends up seen, and is dispatched
when it was not already seen. -/
theorem watcher_seen_c4 (inputs : List IterInput) (seen : Finset String)
    (disp : List String) (f : String) :
    seen ⊆ (start_upload_loop_run inputs seen disp).1 ∧
    (f ∈ seen →
      List.count f (start_upload_loop_run inputs seen disp).2 = List.count f disp) ∧
    (start_upload_loop_run inputs ∅ []).2.Nodup ∧
    (∀ segs (d : String → Bool) dd, f ∈ segs → d f = true →
      f ∈ (processSegments segs d seen dd).1 ∧
      (f ∉ seen → f ∈ (processSegments segs d seen dd).2)) :=
  ⟨run_seen_mono inputs seen disp, run_count_of_seen inputs f seen disp,
   run_nodup inputs ∅ [] (by simp) List.nodup_nil,
   fun segs d dd hm hd => processSegments_complete segs d f seen dd hm hd⟩

theorem watcher_seen_c4_witness :
    ({"x"} : Finset String) ⊆
      (start_upload_loop_run [⟨false, Except.ok ["a", "x"], fun _ => true⟩] {"x"} ["x"]).1 ∧
    List.count "x"
      (start_upload_loop_run [⟨false, Except.ok ["a", "x"], fun _ => true⟩] {"x"} ["x"]).2 =
      List.count "x" ["x"] ∧
    "a" ∈ (processSegments ["a"] (fun _ => true) ({"x"} : Finset String) []).2 := by
  have hx := watcher_seen_c4 [⟨false, Except.ok ["a", "x"], fun _ => true⟩] {"x"} ["x"] "x"
  have ha := watcher_seen_c4 [⟨false, Except.ok ["a", "x"], fun _ => true⟩] {"x"} ["x"] "a"
  exact ⟨hx.1, hx.2.1 (by decide),
    (ha.2.2.2 ["a"] (fun _ => true) [] (by decide) rfl).2 (by decide)⟩

/-- When `current_dir` succeeds, `stop_all_recordings` in closed form. -/
theorem stop_all_recordings_ok_cwd (st : SessionState) (env : StopEnv)
    (hcwd : env.cwd = Except.ok ()) :
    stop_all_recordings st env =
      ⟨(awaitHandles st.upload_handles).1,
       { st with
          shutdown_flag := true
          screen_process := none
          video_process := none
          upload_handles := [] },
       some (if env.selectScreenFirst
         then upload_remaining_chunks st.recording_options env.screenDirRead
         else upload_remaining_chunks st.recording_options env.videoDirRead),
       [if env.selectScreenFirst then "screen" else "video"],
       (awaitHandles st.upload_handles).2⟩ := by
  rw [stop_all_recordings, hcwd]

/-- `awaitHandles` on a list of handles none of which panicked. -/
theorem awaitHandles_all_ok (hs : List (Except String (Except String Unit)))
    (h : ∀ x ∈ hs, ∃ y, x = Except.ok y) :
    awaitHandles hs = (Except.ok (), hs.length) := by
  induction hs with
  | nil => rfl
  | cons a rest ih =>
    obtain ⟨y, rfl⟩ := h a (List.mem_cons_self a rest)
    rw [awaitHandles, ih fun x hx => h x (List.mem_cons_of_mem _ hx)]
    rfl

/-- C1, counterexample: with no active options the drain does fail
immediately without a scan, but the error is only logged — the stop call
itself returns `Ok(())`, not the "no active options" error. -/
theorem stop_no_options_c1_counterexample :
    (stop_all_recordings ⟨none, none, [], none, false⟩
        ⟨Except.ok (), Except.ok [], Except.ok [], true⟩).result = Except.ok () ∧
    (stop_all_recordings ⟨none, none, [], none, false⟩
        ⟨Except.ok (), Except.ok [], Except.ok [], true⟩).drain =
      some ⟨false, [], Except.error "No recording options provided"⟩ :=
  ⟨rfl, rfl⟩

/-- C1, amended: if stop is called with no active options, the selected
drain fails immediately with "No recording options provided" and performs
no filesystem scan of the chunk directory, but the error is only logged:
with no live-phase handles pending, the stop call returns `Ok(())`. -/
theorem stop_no_options_c1 (st : SessionState) (env : StopEnv)
    (hopts : st.recording_options = none) (hcwd : env.cwd = Except.ok ())
    (hhandles : st.upload_handles = []) :
    (stop_all_recordings st env).drain =
      some ⟨false, [], Except.error "No recording options provided"⟩ ∧
    (stop_all_recordings st env).result = Except.ok () := by
  rw [stop_all_recordings_ok_cwd st env hcwd]
  constructor
  · cases hsel : env.selectScreenFirst <;> simp [hsel, hopts, upload_remaining_chunks]
  · simp [hhandles, awaitHandles]

theorem stop_no_options_c1_witness :
    (stop_all_recordings ⟨none, none, [], none, false⟩
        ⟨Except.ok (), Except.ok [], Except.ok [], false⟩).result = Except.ok () :=
  (stop_no_options_c1 ⟨none, none, [], none, false⟩
    ⟨Except.ok (), Except.ok [], Except.ok [], false⟩ rfl rfl rfl).2

/-- C2, counterexample: `stop_all_recordings` `select!`s over the two
drain futures, so it proceeds after the first one completes: here only the
screen drain runs to completion and the video drain is never completed,
although the claim says stop returns only after both streams' drains have
completed. -/
theorem stop_select_c2_counterexample :
    (stop_all_recordings ⟨some 0, some 1, [], some sampleOptions, false⟩
        ⟨Except.ok (), Except.ok [], Except.ok [], true⟩).completedDrains = ["screen"] ∧
    "video" ∉ (stop_all_recordings ⟨some 0, some 1, [], some sampleOptions, false⟩
        ⟨Except.ok (), Except.ok [], Except.ok [], true⟩).completedDrains := by
  refine ⟨rfl, ?_⟩
  have h : (stop_all_recordings ⟨some 0, some 1, [], some sampleOptions, false⟩
      ⟨Except.ok (), Except.ok [], Except.ok [], true⟩).completedDrains = ["screen"] := rfl
  rw [h]
  decide

/-- C2, amended: stop blocks until the first-completing stream drain has
finished (exactly one of the two; the other is cancelled when `select!`
returns), and then until every previously dispatched live-phase upload
handle has been awaited (all of them whenever none panicked), returning
`Ok(())`. -/
theorem stop_select_c2 (st : SessionState) (env : StopEnv)
    (hcwd : env.cwd = Except.ok ())
    (hjoin : ∀ x ∈ st.upload_handles, ∃ y, x = Except.ok y) :
    (stop_all_recordings st env).completedDrains.length = 1 ∧
    (stop_all_recordings st env).liveAwaited = st.upload_handles.length ∧
    (stop_all_recordings st env).result = Except.ok () := by
  rw [stop_all_recordings_ok_cwd st env hcwd]
  have ha := awaitHandles_all_ok st.upload_handles hjoin
  exact ⟨rfl, by rw [ha], by rw [ha]⟩

theorem stop_select_c2_witness :
    (stop_all_recordings ⟨none, none,
        [Except.ok (Except.ok ()), Except.ok (Except.error "upload failed")],
        some sampleOptions, false⟩
      ⟨Except.ok (), Except.ok [], Except.ok [], true⟩).liveAwaited = 2 :=
  (stop_select_c2 ⟨none, none,
      [Except.ok (Except.ok ()), Except.ok (Except.error "upload failed")],
      some sampleOptions, false⟩
    ⟨Except.ok (), Except.ok [], Except.ok [], true⟩ rfl
    (by
      intro x hx
      simp only [List.mem_cons, List.mem_singleton, List.not_mem_nil, or_false] at hx
      rcases hx with rfl | rfl
      · exact ⟨_, rfl⟩
      · exact ⟨_, rfl⟩)).2.1

/-- C8, counterexample: after stop, the child-process handles are cleared
but `recording_options` is only cloned, never cleared: it survives, and a
second stop without a new start still has active options — its drain does
scan the directory and succeeds instead of failing with "no active
options". -/
theorem stop_state_c8_counterexample :
    (stop_all_recordings ⟨some 0, some 1, [], some sampleOptions, true⟩
        ⟨Except.ok (), Except.ok [], Except.ok [], true⟩).finalState.recording_options =
      some sampleOptions ∧
    (stop_all_recordings
        (stop_all_recordings ⟨some 0, some 1, [], some sampleOptions, true⟩
          ⟨Except.ok (), Except.ok [], Except.ok [], true⟩).finalState
        ⟨Except.ok (), Except.ok [], Except.ok [], true⟩).drain =
      some ⟨true, [], Except.ok ()⟩ :=
  ⟨rfl, rfl⟩

/-- C8, amended: when stop completes (with `current_dir` succeeding), the
session state has both child-process handles cleared, the upload handle
collection drained, and the shutdown flag set — but the active options are
left exactly as they were, not cleared. -/
theorem stop_state_c8 (st : SessionState) (env : StopEnv)
    (hcwd : env.cwd = Except.ok ()) :
    (stop_all_recordings st env).finalState.screen_process = none ∧
    (stop_all_recordings st env).finalState.video_process = none ∧
    (stop_all_recordings st env).finalState.upload_handles = [] ∧
    (stop_all_recordings st env).finalState.recording_options = st.recording_options ∧
    (stop_all_recordings st env).finalState.shutdown_flag = true := by
  rw [stop_all_recordings_ok_cwd st env hcwd]
  exact ⟨rfl, rfl, rfl, rfl, rfl⟩

theorem stop_state_c8_witness :
    (stop_all_recordings ⟨some 7, some 8, [Except.ok (Except.ok ())], some sampleOptions, false⟩
        ⟨Except.ok (), Except.ok [], Except.ok [], false⟩).finalState.recording_options =
      some sampleOptions :=
  (stop_state_c8 ⟨some 7, some 8, [Except.ok (Except.ok ())], some sampleOptions, false⟩
    ⟨Except.ok (), Except.ok [], Except.ok [], false⟩ rfl).2.2.2.1

/-- C10: whenever every setup step succeeds and both encoder spawns
succeed, `start_dual_recording` returns `Ok(())` once both watcher loops
exit, whatever the watcher loops observed (`env.screenLoopInputs` and
`env.videoLoopInputs` are unconstrained, covering encoder crashes and
manifest read failures); and a live-phase upload task always resolves to
`Ok(())`, so no live upload failure can be reflected anywhere. -/
theorem start_result_c10 (env : StartEnv) (p : String) (a b : List String)
    (h1 : env.ffmpegPath = Except.ok p) (h2 : env.cwdScreen = Except.ok ())
    (h3 : env.cwdVideo = Except.ok ()) (h4 : env.cleanScreen = Except.ok ())
    (h5 : env.cleanVideo = Except.ok ()) (h6 : env.argsScreen = Except.ok a)
    (h7 : env.argsVideo = Except.ok b) (h8 : env.spawnScreen = Except.ok ())
    (h9 : env.spawnVideo = Except.ok ()) :
    start_dual_recording env = Except.ok () ∧
    ∀ r, liveUploadTask r = Except.ok () := by
  refine ⟨?_, fun r => rfl⟩
  rw [start_dual_recording, h1, h2, h3, h4, h5, h6, h7, h8, h9]

theorem start_result_c10_witness :
    start_dual_recording ⟨Except.ok "ffmpeg", Except.ok (), Except.ok (), Except.ok (),
      Except.ok (), Except.ok ["-f", "x11grab"], Except.ok ["-f", "avfoundation"],
      Except.ok (), Except.ok (),
      [⟨false, Except.error (), fun _ => false⟩], []⟩ = Except.ok () :=
  (start_result_c10 ⟨Except.ok "ffmpeg", Except.ok (), Except.ok (), Except.ok (),
      Except.ok (), Except.ok ["-f", "x11grab"], Except.ok ["-f", "avfoundation"],
      Except.ok (), Except.ok (),
      [⟨false, Except.error (), fun _ => false⟩], []⟩
    "ffmpeg" ["-f", "x11grab"] ["-f", "avfoundation"]
    rfl rfl rfl rfl rfl rfl rfl rfl rfl).1

end Recording
